import Mathlib

/-!
Shallow embedding of `pgexec` (`src/main.go`) for verification of spec claims.

The program connects to PostgreSQL, runs one query inside a transaction, and
renders the result as a table.  External effects (pgxpool, pgx transactions,
query execution, commit) are modelled by an environment `Env` supplying the
outcome of each external call; the program logic itself (`trim`, `getConnPool`
configuration resolution, `execCommand` control flow, `scanRowsToMaps` value
stringification) is translated directly from the Go source.
-/

set_option autoImplicit false

namespace Pgexec

/-- Errors surfaced by the Go code.  `atoiError s` is the error returned by
`strconv.Atoi` when `s` does not parse; `goError` is any error value coming
from the pgx driver (connection, begin, query, scan, commit failures). -/
inductive GoErr where
  | atoiError (s : String)
  | goError (msg : String)
  deriving DecidableEq

/-- `connArgs` from main.go: the six string flags bound by the CLI. -/
structure connArgs where
  host : String
  port : String
  user : String
  password : String
  database : String
  url : String
  deriving DecidableEq

/-- `trim` from main.go: `strings.Trim(str, " \t\n\r")` removes any leading and
trailing characters drawn from that cutset. -/
def isCutsetChar (c : Char) : Bool :=
  c = ' ' || c = '\t' || c = '\n' || c = '\r'

/-- `trim` from main.go. -/
def trim (str : String) : String :=
  ⟨((str.data.dropWhile isCutsetChar).reverse.dropWhile isCutsetChar).reverse⟩

/-- One decimal digit, as used by `strconv.Atoi` (base 10, no underscores). -/
def digitVal (c : Char) : Option Nat :=
  if '0' ≤ c ∧ c ≤ '9' then some (c.toNat - '0'.toNat) else none

/-- Accumulate decimal digits left to right; fails on any non-digit. -/
def parseDigitsAux : List Char → Nat → Option Nat
  | [], acc => some acc
  | c :: rest, acc =>
    match digitVal c with
    | none => none
    | some d => parseDigitsAux rest (acc * 10 + d)

/-- Parse a non-empty all-digit string to a natural number. -/
def parseDigitsList : List Char → Option Nat
  | [] => none
  | l => parseDigitsAux l 0

/-- `strconv.Atoi` from the Go standard library: an optional leading `+` or `-`
sign followed by at least one decimal digit; the value must fit in a 64-bit
signed `int`, otherwise Atoi reports `ErrRange` (an error).  Returns `none`
exactly when Atoi returns a non-nil error. -/
def goAtoi (s : String) : Option Int :=
  match s.data with
  | [] => none
  | c :: rest =>
    let signDigits : Bool × List Char :=
      if c = '-' then (true, rest)
      else if c = '+' then (false, rest)
      else (false, s.data)
    match parseDigitsList signDigits.2 with
    | none => none
    | some n =>
      let v : Int := if signDigits.1 then -(n : Int) else (n : Int)
      if -(2 ^ 63) ≤ v ∧ v < 2 ^ 63 then some v else none

/-- The Go conversion `uint16(port)`: truncation to the low 16 bits
(two-complement wraparound), i.e. the value modulo 2^16. -/
def toUint16 (p : Int) : Nat :=
  (p % 65536).toNat

/-- The `pgxpool.Config` literal built by `getConnPool` on the discrete-fields
path: `MaxConns: 10` and the five `pgconn.Config` fields. -/
structure PoolConfig where
  maxConns : Nat
  host : String
  port : Nat
  database : String
  user : String
  password : String
  deriving DecidableEq

/-- The connection attempt `getConnPool` hands to pgxpool: either
`pgxpool.New(ctx, url)` with the URL string passed verbatim, or
`pgxpool.NewWithConfig` with the constructed config. -/
inductive ConnAttempt where
  | fromUrl (url : String)
  | withConfig (cfg : PoolConfig)
  deriving DecidableEq

/-- The pure decision logic of `getConnPool` (main.go lines 86-106): if the
trimmed `url` is non-empty, connect from the URL verbatim; otherwise run
`strconv.Atoi` on the trimmed `port`, returning the Atoi error on failure, and
otherwise build the pool config with the port truncated by `uint16(port)`.
Which `ConnAttempt` (if any) is produced is decided before any network
operation. -/
def connDecision (a : connArgs) : Except GoErr ConnAttempt :=
  if trim a.url ≠ "" then
    .ok (.fromUrl a.url)
  else
    match goAtoi (trim a.port) with
    | none => .error (.atoiError (trim a.port))
    | some port =>
      .ok (.withConfig
        { maxConns := 10
          host := a.host
          port := toUint16 port
          database := a.database
          user := a.user
          password := a.password })

/-- A decoded column value as pgx v5 stores it into an `interface{}` scan
target: `nil` for SQL NULL, and otherwise the default Go type registered for
the OID of the column — `bool` for bool (OID 16), `int32` for int4 (OID 23),
`string` for text (OID 25), `[16]uint8` for uuid (OID 2950). -/
inductive GoValue where
  | vNull
  | vBool (b : Bool)
  | vInt32 (n : Int)
  | vString (s : String)
  | vBytes16 (bs : Fin 16 → Fin 256)

/-- OID constants from pgtype. -/
def UUIDOID : Nat := 2950

/-- OID constant `pgtype.BoolOID`. -/
def BoolOID : Nat := 16

/-- OID constant `pgtype.Int4OID`. -/
def Int4OID : Nat := 23

/-- OID constant `pgtype.TextOID`. -/
def TextOID : Nat := 25

/-- Lowercase hexadecimal digit, as produced by the Go package `encoding/hex` and the
`%x` fmt verb. -/
def hexDigit (n : Fin 16) : Char :=
  if n.val < 10 then Char.ofNat ('0'.toNat + n.val)
  else Char.ofNat ('a'.toNat + (n.val - 10))

/-- The two lowercase hex characters of one byte. -/
def byteHexChars (b : Fin 256) : List Char :=
  [hexDigit ⟨b.val / 16, by omega⟩, hexDigit ⟨b.val % 16, by omega⟩]

/-- Go `fmt` `%v` (default-format) rendering of the values that can sit in a
scan slot: `<nil>` for nil, `true`/`false` for bool, decimal for int32, the
string itself for string, and `[n n ...]` for a byte array. -/
def sprintfV : GoValue → String
  | .vNull => "<nil>"
  | .vBool b => if b then "true" else "false"
  | .vInt32 n => toString n
  | .vString s => s
  | .vBytes16 bs =>
    "[" ++ String.intercalate " " ((List.finRange 16).map fun i => toString (bs i).val) ++ "]"

/-- The Go runtime type name of the value in a scan slot, as printed by the fmt
bad-verb diagnostic. -/
def goTypeName : GoValue → String
  | .vNull => ""
  | .vBool _ => "bool"
  | .vInt32 _ => "int32"
  | .vString _ => "string"
  | .vBytes16 _ => "[16]uint8"

/-- The fmt bad-verb diagnostic `%!verb(type=value)`. -/
def badVerb (verb : String) (v : GoValue) : String :=
  "%!" ++ verb ++ "(" ++ goTypeName v ++ "=" ++ sprintfV v ++ ")"

/-- Go `fmt.Sprintf("%s", v)`: strings print as themselves, a byte array
prints as the string of its bytes, a nil interface prints `%!s(<nil>)`, and
any other type triggers the bad-verb diagnostic (e.g. `%!s(int32=1)` for
`int32(1)`). -/
def sprintfS : GoValue → String
  | .vString s => s
  | .vBytes16 bs => ⟨(List.finRange 16).map fun i => Char.ofNat (bs i).val⟩
  | .vNull => "%!s(<nil>)"
  | v => badVerb "s" v

/-- Go `fmt.Sprintf("%t", v)`: `true`/`false` for a bool, `%!t(<nil>)` for a
nil interface, and the bad-verb diagnostic for any other type. -/
def sprintfT : GoValue → String
  | .vBool b => if b then "true" else "false"
  | .vNull => "%!t(<nil>)"
  | v => badVerb "t" v

/-- Go `fmt.Sprintf("%x", v)` on a value holding a byte array: the
concatenated lowercase hex encoding of the bytes. -/
def sprintfXBytes (bs : Fin 16 → Fin 256) : String :=
  ⟨((List.finRange 16).map fun i => byteHexChars (bs i)).flatten⟩

/-- `uuid.FromBytes` of github.com/gofrs/uuid/v5: delegates to
`UnmarshalBinary`, which errors exactly when the length of the input slice is not
16 and otherwise copies the bytes into the UUID. -/
def uuidFromBytes (data : List (Fin 256)) : Option (Fin 16 → Fin 256) :=
  if h : data.length = 16 then
    some (fun i => data.get ⟨i.val, by omega⟩)
  else
    none

/-- `UUID.String()` of github.com/gofrs/uuid/v5: canonical form
`xxxxxxxx-xxxx-xxxx-xxxx-xxxxxxxxxxxx`, the lowercase hex encoding of bytes
0-3, 4-5, 6-7, 8-9 and 10-15 separated by hyphens. -/
def uuidStringChars (u : Fin 16 → Fin 256) : List Char :=
  byteHexChars (u 0) ++ byteHexChars (u 1) ++ byteHexChars (u 2) ++ byteHexChars (u 3)
    ++ ['-'] ++ byteHexChars (u 4) ++ byteHexChars (u 5)
    ++ ['-'] ++ byteHexChars (u 6) ++ byteHexChars (u 7)
    ++ ['-'] ++ byteHexChars (u 8) ++ byteHexChars (u 9)
    ++ ['-'] ++ byteHexChars (u 10) ++ byteHexChars (u 11) ++ byteHexChars (u 12)
    ++ byteHexChars (u 13) ++ byteHexChars (u 14) ++ byteHexChars (u 15)

/-- `UUID.String()` as a `String`. -/
def uuidString (u : Fin 16 → Fin 256) : String :=
  ⟨uuidStringChars u⟩

/-- The slice expression `arr[:]` on the `[16]uint8` value: the list of its 16
bytes in order. -/
def bytesToList (bs : Fin 16 → Fin 256) : List (Fin 256) :=
  List.ofFn bs

/-- The value-to-display-string conversion in `scanRowsToMaps`
(main.go lines 165-184): a nil slot renders as `"null"`; otherwise switch on
the `DataTypeOID` of the column — for `pgtype.UUIDOID` assert `[16]uint8` (a
failed type assertion panics, modelled by `none`; pgx always decodes
UUID-OID columns to `[16]uint8`), decode with `uuid.FromBytes` and render
`uuidVal.String()`, falling back to `fmt.Sprintf("%x", v)` if decoding
errors; for `pgtype.BoolOID` render `fmt.Sprintf("%t", v)`; for every other
OID render `fmt.Sprintf("%s", v)`. -/
def formatScanValue (oid : Nat) (v : GoValue) : Option String :=
  match v with
  | .vNull => some "null"
  | v =>
    if oid = UUIDOID then
      match v with
      | .vBytes16 bs =>
        match uuidFromBytes (bytesToList bs) with
        | none => some (sprintfXBytes bs)
        | some u => some (uuidString u)
      | _ => none
    else if oid = BoolOID then
      some (sprintfT v)
    else
      some (sprintfS v)

/-- One field description from `rows.FieldDescriptions()`: the column name and
its `DataTypeOID`. -/
structure Field where
  name : String
  dataTypeOID : Nat
  deriving DecidableEq

/-- One iteration of the cursor: `rows.Next()` returned true, and
`rows.Scan(scans...)` left `scanned` in the scan slots.  `scanErr` is the
error value `rows.Scan` returned (which main.go discards).  In pgx v5 a scan
error marks the rows fatal, so the next `rows.Next()` returns false and
`rows.Err()` reports the error; on a failed scan the slot contents are
unspecified partial data, supplied here by the environment. -/
structure ScanStep where
  scanned : List GoValue
  scanErr : Option GoErr

/-- Go map assignment `row[k] = v`: overwrite the existing entry for `k`, or
append a new one. -/
def mapSet (m : List (String × String)) (k v : String) : List (String × String) :=
  if m.any (fun p => p.1 = k) then
    m.map (fun p => if p.1 = k then (k, v) else p)
  else
    m ++ [(k, v)]

/-- Go map read `m[k]`: the entry for `k`, if any. -/
def mapGet (m : List (String × String)) (k : String) : Option String :=
  (m.find? (fun p => p.1 = k)).map (fun p => p.2)

/-- The inner loop of `scanRowsToMaps` building one row map: for each scan slot
in order, convert the value with the OID switch and store it under the
column name (`row[fields[i].Name] = value`).  `scans` is created with
`len(fields)` slots, so fields and slots align index by index.  `none` models
a Go panic from the type assertion in the UUID branch. -/
def buildRowAux : List (Field × GoValue) → List (String × String) →
    Option (List (String × String))
  | [], row => some row
  | (f, v) :: rest, row =>
    match formatScanValue f.dataTypeOID v with
    | none => none
    | some s => buildRowAux rest (mapSet row f.name s)

/-- `scanRowsToMaps` (main.go lines 153-190): iterate `rows.Next()`, scan each
row into fresh slots, convert every slot to a display string and collect the
row maps.  The error returned by `rows.Scan` is discarded, and `rows.Err()`
is never consulted: after a failed scan the (garbage) row map is still
appended and iteration simply stops because pgx marked the rows fatal. -/
def scanRowsToMaps (fields : List Field) : List ScanStep →
    Option (List (List (String × String)))
  | [] => some []
  | step :: rest =>
    match buildRowAux (fields.zip step.scanned) [] with
    | none => none
    | some row =>
      match step.scanErr with
      | some _ => some [row]
      | none =>
        match scanRowsToMaps fields rest with
        | none => none
        | some rows => some (row :: rows)

/-- The header row built in `execCommand`: one cell per field description,
holding the column name. -/
def renderHeader (fields : List Field) : List String :=
  fields.map (fun f => f.name)

/-- The body rows built in `execCommand`: for each row map, one cell per field
description holding `val[field.Name]`.  A Go map read of an absent key yields
a nil interface, which go-pretty renders as `<nil>`; with the fields used to
build the maps the key is always present. -/
def renderBody (fields : List Field) (vals : List (List (String × String))) :
    List (List String) :=
  vals.map (fun val => fields.map (fun f => (mapGet val f.name).getD "<nil>"))

/-- Outcomes of the external pgx calls made during one invocation.
`poolResult` is the outcome of `pgxpool.New` / `pgxpool.NewWithConfig` for a
given connection attempt; `queryResult` supplies the field descriptions and
the cursor contents on success. -/
structure Env where
  poolResult : ConnAttempt → Except GoErr Unit
  beginResult : Except GoErr Unit
  queryResult : Except GoErr (List Field × List ScanStep)
  commitResult : Except GoErr Unit

/-- How `execCommand` terminates: a nil error returned to the CLI (process
exit 0), a non-nil error (printed, non-zero exit), or a runtime panic. -/
inductive ExecResult where
  | ok
  | err (e : GoErr)
  | panicked
  deriving DecidableEq

/-- The fate of the transaction when the invocation ends: never begun, explicitly
committed by `tx.Commit`, or rolled back by the deferred `tx.Rollback`. -/
inductive TxFate where
  | noTx
  | committed
  | rolledBack
  deriving DecidableEq

/-- Observable outcome of `execCommand`: its return/panic status, the
fate of the transaction, and the table contents handed to the renderer (header
cells and body cells), `none` when `t.Render()` was never reached. -/
structure ExecOutcome where
  result : ExecResult
  tx : TxFate
  rendered : Option (List String × List (List String))
  deriving DecidableEq

/-- `execCommand` (main.go lines 108-151), with external call outcomes drawn
from `env`.  Control flow translated step by step: resolve the pool via
`getConnPool` (returning its error if any, before any transaction); `defer
tx.Rollback(ctx)` is registered before the `Begin` error check, so when
`Begin` fails (`tx` is the nil interface) the deferred call is a method call
on a nil interface and panics instead of returning the error; on a query
error the deferred rollback fires; rows are materialized by
`scanRowsToMaps` (a panic there unwinds through the defers, rolling back);
the table is rendered before `tx.Commit`, so a commit failure still rendered
and the deferred rollback fires; on success the transaction is committed. -/
def execCommand (env : Env) (a : connArgs) : ExecOutcome :=
  match connDecision a with
  | .error e => ⟨.err e, .noTx, none⟩
  | .ok att =>
    match env.poolResult att with
    | .error e => ⟨.err e, .noTx, none⟩
    | .ok _ =>
      match env.beginResult with
      | .error _ => ⟨.panicked, .noTx, none⟩
      | .ok _ =>
        match env.queryResult with
        | .error e => ⟨.err e, .rolledBack, none⟩
        | .ok (fields, cursor) =>
          match scanRowsToMaps fields cursor with
          | none => ⟨.panicked, .rolledBack, none⟩
          | some vals =>
            let rendered := (renderHeader fields, renderBody fields vals)
            match env.commitResult with
            | .error e => ⟨.err e, .rolledBack, some rendered⟩
            | .ok _ => ⟨.ok, .committed, some rendered⟩

/-! ### Spec-side comparator and concrete fixtures -/

/-- The notion used by the spec sentence "`port` must parse as an unsigned
16-bit integer": the string parses as an integer whose value lies within
[0, 65535].  This definition follows the spec wording, to be compared with
the source-derived `connDecision`. -/
def specPortParsesAsUint16 (s : String) : Bool :=
  match goAtoi s with
  | none => false
  | some v => decide (0 ≤ v) && decide (v < 65536)

/-- A connArgs value carrying only a URL. -/
def argsUrl : connArgs :=
  { host := "", port := "", user := "", password := "", database := ""
    url := "postgres://example" }

/-- A connArgs value with the same URL as `argsUrl` but arbitrary different
discrete fields. -/
def argsUrlAlt : connArgs :=
  { host := "otherhost", port := "9999", user := "u2", password := "pw2"
    database := "d2", url := "postgres://example" }

/-- A connArgs value with no URL and the port flag set to the numeric string
-1, which is not an unsigned 16-bit integer. -/
def argsNegPort : connArgs :=
  { host := "h", port := "-1", user := "u", password := "pw", database := "d"
    url := "" }

/-- A connArgs value with no URL and a non-numeric port flag. -/
def argsBadPort : connArgs :=
  { host := "h", port := "abc", user := "u", password := "pw", database := "d"
    url := "" }

/-- Field descriptions of the query SELECT 1 AS n, true AS b, NULL AS x:
int4, bool, and text (the server coerces an untyped NULL column to text). -/
def fieldsC2 : List Field :=
  [⟨"n", Int4OID⟩, ⟨"b", BoolOID⟩, ⟨"x", TextOID⟩]

/-- The single cursor row of that query: pgx decodes int4 1 to `int32(1)`,
bool true to `true`, and NULL to a nil interface; the scan succeeds. -/
def cursorC2 : List ScanStep :=
  [⟨[.vInt32 1, .vBool true, .vNull], none⟩]

/-- Environment in which every external call succeeds and the query returns
the `SELECT 1 AS n, true AS b, NULL AS x` result set. -/
def envC2 : Env :=
  { poolResult := fun _ => .ok ()
    beginResult := .ok ()
    queryResult := .ok (fieldsC2, cursorC2)
    commitResult := .ok () }

/-- A cursor whose first row scan fails (`rows.Scan` returns an error and pgx
marks the rows fatal); the slot holds the string the driver managed to leave
there.  The second row is never reached. -/
def cursorScanFail : List ScanStep :=
  [⟨[.vString "x"], some (.goError "scan failure")⟩, ⟨[.vString "y"], none⟩]

/-- Environment in which pool, begin and commit succeed and the query yields
one text column with `cursorScanFail`. -/
def envScanFail : Env :=
  { poolResult := fun _ => .ok ()
    beginResult := .ok ()
    queryResult := .ok ([⟨"a", TextOID⟩], cursorScanFail)
    commitResult := .ok () }

/-- Environment in which the pool opens but `pool.Begin` fails, returning a
nil transaction handle together with the error. -/
def envBeginFails : Env :=
  { poolResult := fun _ => .ok ()
    beginResult := .error (.goError "begin failed")
    queryResult := .error (.goError "unreached")
    commitResult := .error (.goError "unreached") }

/-! ### Helper lemmas -/

/-- Decoding the 16 bytes of a `[16]uint8` value always succeeds and returns
exactly those bytes. -/
theorem uuidFromBytes_bytesToList (bs : Fin 16 → Fin 256) :
    uuidFromBytes (bytesToList bs) = some bs := by
  have h16 : (bytesToList bs).length = 16 := by
    simp [bytesToList]
  rw [uuidFromBytes, dif_pos h16]
  congr 1
  funext i
  simp only [bytesToList, List.get_eq_getElem, List.getElem_ofFn, Fin.eta]

/-- Lowercase-hex character predicate: a decimal digit or a letter a-f. -/
def isLowerHexChar (c : Char) : Bool :=
  ('0' ≤ c && c ≤ '9') || ('a' ≤ c && c ≤ 'f')

/-- Every lowercase hexadecimal digit is a lowercase hex character. -/
theorem hexDigit_isLowerHex (n : Fin 16) : isLowerHexChar (hexDigit n) = true := by
  revert n
  decide

/-- Both characters of a byte rendered in hex are lowercase hex characters. -/
theorem byteHexChars_all_hex (b : Fin 256) :
    (byteHexChars b).all isLowerHexChar = true := by
  simp [byteHexChars, hexDigit_isLowerHex]

/-- A byte renders as exactly two hex characters. -/
theorem byteHexChars_length (b : Fin 256) : (byteHexChars b).length = 2 := rfl

/-! ### Claim theorems -/

/-- C5: a UUID-typed column value of 16 bytes is displayed as the canonical
hyphenated lowercase UUID text (decoding those 16 bytes never fails, so the
hex fallback written for a failed decode is never exercised), and the
conversion always yields a display string — it never aborts the query. -/
theorem c5_uuid_display (bs : Fin 16 → Fin 256) :
    (uuidFromBytes (bytesToList bs)).isSome = true
    ∧ formatScanValue UUIDOID (GoValue.vBytes16 bs) = some (uuidString bs)
    ∧ ∃ g1 g2 g3 g4 g5 : List Char,
        uuidStringChars bs = g1 ++ '-' :: (g2 ++ '-' :: (g3 ++ '-' :: (g4 ++ '-' :: g5)))
        ∧ g1.length = 8 ∧ g2.length = 4 ∧ g3.length = 4 ∧ g4.length = 4 ∧ g5.length = 12
        ∧ (g1 ++ g2 ++ g3 ++ g4 ++ g5).all isLowerHexChar = true := by
  refine ⟨by rw [uuidFromBytes_bytesToList]; rfl, ?_, ?_⟩
  · simp [formatScanValue, uuidFromBytes_bytesToList]
  · refine ⟨byteHexChars (bs 0) ++ byteHexChars (bs 1) ++ byteHexChars (bs 2)
      ++ byteHexChars (bs 3),
      byteHexChars (bs 4) ++ byteHexChars (bs 5),
      byteHexChars (bs 6) ++ byteHexChars (bs 7),
      byteHexChars (bs 8) ++ byteHexChars (bs 9),
      byteHexChars (bs 10) ++ byteHexChars (bs 11) ++ byteHexChars (bs 12)
      ++ byteHexChars (bs 13) ++ byteHexChars (bs 14) ++ byteHexChars (bs 15),
      ?_, ?_, ?_, ?_, ?_, ?_, ?_⟩
    · simp [uuidStringChars]
    · simp [byteHexChars_length]
    · simp [byteHexChars_length]
    · simp [byteHexChars_length]
    · simp [byteHexChars_length]
    · simp [byteHexChars_length]
    · simp [List.all_append, byteHexChars_all_hex]

/-- C7: a present (non-null) boolean-typed column value is displayed as
exactly "true" or exactly "false", never "1" or "0". -/
theorem c7_bool_rendering (b : Bool) :
    formatScanValue BoolOID (GoValue.vBool b) = some (if b then "true" else "false")
    ∧ formatScanValue BoolOID (GoValue.vBool b) ≠ some "1"
    ∧ formatScanValue BoolOID (GoValue.vBool b) ≠ some "0" := by
  cases b <;> exact ⟨rfl, by decide, by decide⟩

/-- C10: `uuid.FromBytes` rejects exactly the inputs whose length is not 16,
so for every 16-byte array value of a UUID-typed column the decode succeeds
and the lowercase-hex fallback branch is unreachable — the display always
goes through `UUID.String()`. -/
theorem c10_uuid_fallback_unreachable :
    (∀ l : List (Fin 256), uuidFromBytes l = none ↔ l.length ≠ 16)
    ∧ ∀ bs : Fin 16 → Fin 256, ∃ u, uuidFromBytes (bytesToList bs) = some u
        ∧ formatScanValue UUIDOID (GoValue.vBytes16 bs) = some (uuidString u) := by
  constructor
  · intro l
    by_cases h : l.length = 16 <;> simp [uuidFromBytes, h]
  · intro bs
    exact ⟨bs, uuidFromBytes_bytesToList bs,
      by simp [formatScanValue, uuidFromBytes_bytesToList]⟩

/-- C2 (code bug): for the query SELECT 1 AS n, true AS b, NULL AS x the
header is [n, b, x] and booleans and NULLs render as claimed, but the
integer cell renders as "%!s(int32=1)" — the default branch formats the
value with the %s fmt verb, which on an int32 produces the bad-verb
diagnostic instead of the natural representation "1". -/
theorem c2_select_row_rendering :
    execCommand envC2 argsUrl =
      ⟨.ok, .committed, some (["n", "b", "x"], [["%!s(int32=1)", "true", "null"]])⟩
    ∧ (execCommand envC2 argsUrl).rendered ≠
        some (["n", "b", "x"], [["1", "true", "null"]]) := by
  exact ⟨by decide, by decide⟩

/-- C1 counterexample: with no URL and port flag "-1" — a string that does
not parse as an unsigned 16-bit integer — getConnPool does not fail; it
proceeds to build a pool config with the port wrapped to 65535. -/
theorem c1_counterexample :
    specPortParsesAsUint16 (trim argsNegPort.port) = false
    ∧ connDecision argsNegPort =
        .ok (.withConfig ⟨10, "h", 65535, "d", "u", "pw"⟩) := by
  exact ⟨by decide, rfl⟩

/-- C1 (amended): with an empty trimmed URL, getConnPool fails (with the
strconv.Atoi error, before any network operation and without creating any
pool) exactly when the trimmed port does not parse as a signed 64-bit
integer; a port that parses but lies outside [0, 65535] is not rejected —
it is truncated modulo 2^16 and the pool attempt proceeds. -/
theorem c1_port_resolution (a : connArgs) (hurl : trim a.url = "") :
    ((connDecision a).isOk = (goAtoi (trim a.port)).isSome)
    ∧ (goAtoi (trim a.port) = none →
        connDecision a = .error (.atoiError (trim a.port))
        ∧ ∀ env : Env, execCommand env a =
            ⟨.err (.atoiError (trim a.port)), .noTx, none⟩)
    ∧ (∀ p : Int, goAtoi (trim a.port) = some p →
        connDecision a = .ok (.withConfig
          ⟨10, a.host, toUint16 p, a.database, a.user, a.password⟩)) := by
  have hd : connDecision a =
      match goAtoi (trim a.port) with
      | none => .error (.atoiError (trim a.port))
      | some port => .ok (.withConfig
          ⟨10, a.host, toUint16 port, a.database, a.user, a.password⟩) := by
    simp [connDecision, hurl]
  refine ⟨?_, ?_, ?_⟩
  · rw [hd]
    cases h : goAtoi (trim a.port) <;> simp [h, Except.isOk, Except.toBool]
  · intro hnone
    have hc : connDecision a = .error (.atoiError (trim a.port)) := by
      rw [hd, hnone]
    exact ⟨hc, fun env => by simp [execCommand, hc]⟩
  · intro p hp
    rw [hd, hp]

/-- C1 witness: the amended theorem applied to the non-numeric port "abc". -/
theorem c1_port_resolution_witness :
    trim argsBadPort.url = ""
    ∧ (((connDecision argsBadPort).isOk = (goAtoi (trim argsBadPort.port)).isSome)
      ∧ (goAtoi (trim argsBadPort.port) = none →
          connDecision argsBadPort = .error (.atoiError (trim argsBadPort.port))
          ∧ ∀ env : Env, execCommand env argsBadPort =
              ⟨.err (.atoiError (trim argsBadPort.port)), .noTx, none⟩)
      ∧ (∀ p : Int, goAtoi (trim argsBadPort.port) = some p →
          connDecision argsBadPort = .ok (.withConfig
            ⟨10, argsBadPort.host, toUint16 p, argsBadPort.database,
              argsBadPort.user, argsBadPort.password⟩))) :=
  ⟨rfl, c1_port_resolution argsBadPort rfl⟩

/-- C3 counterexample: the first cursor row scan fails, yet execCommand
returns no error — the invocation renders the partial table, commits and
exits 0, so the scan failure does not propagate to the CLI entry point. -/
theorem c3_counterexample :
    (cursorScanFail.map fun st => st.scanErr.isSome) = [true, false]
    ∧ execCommand envScanFail argsUrl = ⟨.ok, .committed, some (["a"], [["x"]])⟩ := by
  exact ⟨rfl, by decide⟩

/-- C3 (amended): scanRowsToMaps discards the error returned by rows.Scan
and rows.Err() is never checked, so once pool, begin, query and commit
succeed, execCommand returns nil (exit 0) for every cursor — scan failures
included; a failed scan merely truncates iteration and the rows gathered so
far are rendered and committed. -/
theorem c3_scan_errors_ignored (env : Env) (a : connArgs) (att : ConnAttempt)
    (fields : List Field) (cursor : List ScanStep)
    (vals : List (List (String × String)))
    (hconn : connDecision a = .ok att)
    (hpool : env.poolResult att = .ok ())
    (hbegin : env.beginResult = .ok ())
    (hquery : env.queryResult = .ok (fields, cursor))
    (hcommit : env.commitResult = .ok ())
    (hscan : scanRowsToMaps fields cursor = some vals) :
    execCommand env a =
      ⟨.ok, .committed, some (renderHeader fields, renderBody fields vals)⟩ := by
  simp [execCommand, hconn, hpool, hbegin, hquery, hcommit, hscan]

/-- C3 witness: the amended theorem applied to the failing-scan cursor. -/
theorem c3_scan_errors_ignored_witness :
    connDecision argsUrl = .ok (.fromUrl "postgres://example")
    ∧ envScanFail.poolResult (.fromUrl "postgres://example") = .ok ()
    ∧ envScanFail.beginResult = .ok ()
    ∧ envScanFail.queryResult = .ok ([⟨"a", TextOID⟩], cursorScanFail)
    ∧ envScanFail.commitResult = .ok ()
    ∧ scanRowsToMaps [⟨"a", TextOID⟩] cursorScanFail = some [[("a", "x")]]
    ∧ execCommand envScanFail argsUrl =
        ⟨.ok, .committed, some (renderHeader [⟨"a", TextOID⟩],
          renderBody [⟨"a", TextOID⟩] [[("a", "x")]])⟩ :=
  ⟨rfl, rfl, rfl, rfl, rfl, by decide,
    c3_scan_errors_ignored envScanFail argsUrl (.fromUrl "postgres://example")
      [⟨"a", TextOID⟩] cursorScanFail [[("a", "x")]] rfl rfl rfl rfl rfl (by decide)⟩

/-- C4: once the pool opens and the transaction is successfully begun, every
exit path of execCommand — query failure, scan panic, commit failure, or
success — leaves the transaction explicitly committed or rolled back by the
deferred rollback; no path exits with the transaction still open. -/
theorem c4_transaction_closed (env : Env) (a : connArgs) (att : ConnAttempt)
    (hconn : connDecision a = .ok att)
    (hpool : env.poolResult att = .ok ())
    (hbegin : env.beginResult = .ok ()) :
    (execCommand env a).tx = .committed ∨ (execCommand env a).tx = .rolledBack := by
  rcases hq : env.queryResult with e | ⟨fields, cursor⟩
  · right
    simp [execCommand, hconn, hpool, hbegin, hq]
  · rcases hs : scanRowsToMaps fields cursor with _ | vals
    · right
      simp [execCommand, hconn, hpool, hbegin, hq, hs]
    · rcases hc : env.commitResult with e | u
      · right
        simp [execCommand, hconn, hpool, hbegin, hq, hs, hc]
      · left
        simp [execCommand, hconn, hpool, hbegin, hq, hs, hc]

/-- C4 witness: the theorem applied to the all-success environment. -/
theorem c4_transaction_closed_witness :
    connDecision argsUrl = .ok (.fromUrl "postgres://example")
    ∧ envC2.poolResult (.fromUrl "postgres://example") = .ok ()
    ∧ envC2.beginResult = .ok ()
    ∧ ((execCommand envC2 argsUrl).tx = .committed
      ∨ (execCommand envC2 argsUrl).tx = .rolledBack) :=
  ⟨rfl, rfl, rfl,
    c4_transaction_closed envC2 argsUrl (.fromUrl "postgres://example") rfl rfl rfl⟩

/-- C6: when the trimmed URL is non-empty, the connection is opened from the
URL verbatim and the discrete host/port/user/password/db fields are never
consulted: two connArgs with the same URL behave identically under every
environment. -/
theorem c6_url_precedence (a b : connArgs)
    (hne : trim a.url ≠ "") (heq : a.url = b.url) :
    connDecision a = .ok (.fromUrl a.url)
    ∧ connDecision b = .ok (.fromUrl b.url)
    ∧ ∀ env : Env, execCommand env a = execCommand env b := by
  have hb : trim b.url ≠ "" := heq ▸ hne
  have ha2 : connDecision a = .ok (.fromUrl a.url) := by simp [connDecision, hne]
  have hb2 : connDecision b = .ok (.fromUrl b.url) := by simp [connDecision, hb]
  refine ⟨ha2, hb2, fun env => ?_⟩
  simp [execCommand, ha2, hb2, heq]

/-- C6 witness: two connArgs sharing the URL but with entirely different
discrete fields. -/
theorem c6_url_precedence_witness :
    trim argsUrl.url ≠ "" ∧ argsUrl.url = argsUrlAlt.url
    ∧ (connDecision argsUrl = .ok (.fromUrl argsUrl.url)
      ∧ connDecision argsUrlAlt = .ok (.fromUrl argsUrlAlt.url)
      ∧ ∀ env : Env, execCommand env argsUrl = execCommand env argsUrlAlt) :=
  ⟨by decide, rfl, c6_url_precedence argsUrl argsUrlAlt (by decide) rfl⟩

/-- C8: when pool.Begin fails, the rollback deferred on the nil transaction
handle before the error check panics the invocation instead of returning the
Begin error cleanly. -/
theorem c8_begin_failure_panics (env : Env) (a : connArgs) (att : ConnAttempt)
    (e : GoErr)
    (hconn : connDecision a = .ok att)
    (hpool : env.poolResult att = .ok ())
    (hbegin : env.beginResult = .error e) :
    (execCommand env a).result = .panicked
    ∧ ∀ e2 : GoErr, (execCommand env a).result ≠ .err e2 := by
  have h : execCommand env a = ⟨.panicked, .noTx, none⟩ := by
    simp [execCommand, hconn, hpool, hbegin]
  rw [h]
  exact ⟨rfl, fun e2 => by simp⟩

/-- C8 witness: the theorem applied to an environment whose Begin fails. -/
theorem c8_begin_failure_panics_witness :
    connDecision argsUrl = .ok (.fromUrl "postgres://example")
    ∧ envBeginFails.poolResult (.fromUrl "postgres://example") = .ok ()
    ∧ envBeginFails.beginResult = .error (.goError "begin failed")
    ∧ ((execCommand envBeginFails argsUrl).result = .panicked
      ∧ ∀ e2 : GoErr, (execCommand envBeginFails argsUrl).result ≠ .err e2) :=
  ⟨rfl, rfl, rfl,
    c8_begin_failure_panics envBeginFails argsUrl (.fromUrl "postgres://example")
      (.goError "begin failed") rfl rfl rfl⟩

/-- C9: with two columns sharing one name, the row map keyed by column name
keeps only the last same-named value, and both rendered cells for that name
display the stringification of the last value — the first value is lost. -/
theorem c9_duplicate_column_names (name : String) (oid1 oid2 : Nat)
    (v1 v2 : GoValue) (d1 d2 : String)
    (h1 : formatScanValue oid1 v1 = some d1)
    (h2 : formatScanValue oid2 v2 = some d2) :
    scanRowsToMaps [⟨name, oid1⟩, ⟨name, oid2⟩] [⟨[v1, v2], none⟩]
      = some [[(name, d2)]]
    ∧ renderBody [⟨name, oid1⟩, ⟨name, oid2⟩] [[(name, d2)]] = [[d2, d2]] := by
  constructor
  · simp [scanRowsToMaps, buildRowAux, h1, h2, mapSet]
  · simp [renderBody, mapGet]

/-- C9 witness: a bool column and a text column both named "a". -/
theorem c9_duplicate_column_names_witness :
    formatScanValue BoolOID (GoValue.vBool true) = some "true"
    ∧ formatScanValue TextOID (GoValue.vString "x") = some "x"
    ∧ (scanRowsToMaps [⟨"a", BoolOID⟩, ⟨"a", TextOID⟩]
          [⟨[GoValue.vBool true, GoValue.vString "x"], none⟩] = some [[("a", "x")]]
      ∧ renderBody [⟨"a", BoolOID⟩, ⟨"a", TextOID⟩] [[("a", "x")]] = [["x", "x"]]) :=
  ⟨rfl, rfl,
    c9_duplicate_column_names "a" BoolOID TextOID (GoValue.vBool true)
      (GoValue.vString "x") "true" "x" rfl rfl⟩

end Pgexec
